import Mathlib

/-! Creature sighting: the generator registry and the in-memory store.

A shallow embedding of the Go packages `internal/sighting`, `internal/storage`
and `internal/creatures/kaiju`.

* A Go `map[string]V` is an association list with one entry per key
  (`GoMap`); `m[k] = v` replaces the entry of `k` or adds one.
* Methods with a pointer receiver that mutate their receiver return the new
  receiver value.
* The mutexes are not part of the sequential model: every method body runs
  between `Lock`/`Unlock` (or `RLock`/`RUnlock`), so a method call is one step.
* `time.Time` is the number of nanoseconds since the Unix epoch, an `Int`.
* The `float64` coordinates of the location table are the rationals that the
  decimal literals of the source denote.
-/

/-! ## Go maps with string keys -/

/-- A Go `map[string]V`: the entries, one per key. -/
abbrev GoMap (V : Type) := List (String × V)

namespace GoMap

/-- The expression `make(map[string]V)`. -/
def empty {V : Type} : GoMap V := []

/-- The lookup `v, exists := m[k]`: `some v` when `exists`, else `none`. -/
def get {V : Type} : GoMap V → String → Option V
  | [], _ => none
  | (k', v) :: m, k => if k' = k then some v else get m k

/-- The assignment `m[k] = v`. -/
def set {V : Type} : GoMap V → String → V → GoMap V
  | [], k, v => [(k, v)]
  | (k', v') :: m, k, v => if k' = k then (k, v) :: m else (k', v') :: set m k v

/-- The builtin `len(m)`. -/
def len {V : Type} (m : GoMap V) : Nat := m.length

/-- The keys that `for k := range m` visits (Go leaves their order open). -/
def keys {V : Type} (m : GoMap V) : List String := m.map Prod.fst

end GoMap

/-! ## What a call observes of the outside: the clock and the random source -/

/-- The clock and the random source as the program reads them: `now k` is the
`k`-th reading of `time.Now()` (Unix nanoseconds), `random k` the `k`-th
outcome of `rand.Int(rand.Reader, _)` (an error of the reader, or a number that
the call reduces below its bound); the counters say how many were consumed. -/
structure World where
  now : Nat → Int
  nowCalls : Nat
  random : Nat → Except String Nat
  randomCalls : Nat

namespace World

/-- The call `time.Now()`. -/
def timeNow (w : World) : Int × World :=
  (w.now w.nowCalls, { w with nowCalls := w.nowCalls + 1 })

/-- The call `rand.Int(rand.Reader, big.NewInt(bound))` for `bound > 0`: a
number in `[0, bound)` or the reader's error. -/
def randInt (w : World) (bound : Int) : Except String Int × World :=
  match w.random w.randomCalls with
  | .error e => (.error e, { w with randomCalls := w.randomCalls + 1 })
  | .ok v => (.ok ((v : Int) % bound), { w with randomCalls := w.randomCalls + 1 })

end World

/-- The constant `time.Hour`, in nanoseconds. -/
def timeHour : Int := 3600 * 1000000000

/-! ## Package `sighting`: the domain types -/

namespace sighting

/-- Type `Location` of `sighting.go`. -/
structure Location where
  Latitude : Rat
  Longitude : Rat
  City : String
  Country : String
  Region : String
  deriving DecidableEq

/-- A value of Go's `any` as far as the generators store one in `Attributes`. -/
inductive AnyValue where
  | str (s : String)
  | int (n : Int)
  | bool (b : Bool)
  deriving DecidableEq

/-- Type `Attributes` of `sighting.go`: `map[string]any`. -/
abbrev Attributes := GoMap AnyValue

/-- Type `Sighting` of `sighting.go`; the field `Type` is `Type_` here. -/
structure Sighting where
  ID : String
  Name : String
  Type_ : String
  Category : String
  Location : sighting.Location
  Description : String
  Timestamp : Int
  Attributes : sighting.Attributes
  deriving DecidableEq

/-- The zero `time.Time` (January 1, year 1, 00:00 UTC) in Unix nanoseconds. -/
def zeroTime : Int := -62135596800 * 1000000000

/-- The zero value of `Sighting`, which a failed map lookup yields. -/
def Sighting.zero : Sighting :=
  { ID := "", Name := "", Type_ := "", Category := "",
    Location := { Latitude := 0, Longitude := 0, City := "", Country := "", Region := "" },
    Description := "", Timestamp := zeroTime, Attributes := [] }

/-- Interface `Generator` of `sighting.go`: `Generate` reads the clock and the
random source and returns a record or an error. -/
structure Generator where
  Generate : World → Except String Sighting × World
  Category : String

/-- Type `Registry` of `registry.go` without its mutex. -/
structure Registry where
  generators : GoMap Generator

/-- Function `NewRegistry`. -/
def NewRegistry : Registry := { generators := GoMap.empty }

namespace Registry

/-- Method `Register`: the returned error (`none` for `nil`) and the registry
after the call. -/
def Register (r : Registry) (category : String) (generator : Generator) :
    Option String × Registry :=
  match r.generators.get category with
  | some _ => (some ("generator for category " ++ category ++ " already registered"), r)
  | none => (none, { generators := r.generators.set category generator })

/-- Method `Get`. -/
def Get (r : Registry) (category : String) : Except String Generator :=
  match r.generators.get category with
  | none => .error ("no generator found for category " ++ category)
  | some generator => .ok generator

/-- Method `Categories`. -/
def Categories (r : Registry) : List String := r.generators.keys

end Registry

/-- A sequence of `Register` calls run one after the other: the category and
the returned error of each call, and the registry at the end. -/
def registerAll (r : Registry) :
    List (String × Generator) → List (String × Option String) × Registry
  | [] => ([], r)
  | (category, generator) :: calls =>
    ((category, (r.Register category generator).1)
        :: (registerAll (r.Register category generator).2 calls).1,
      (registerAll (r.Register category generator).2 calls).2)

/-- How many of the calls run by `registerAll` registered `category` with success. -/
def successesFor (category : String) (results : List (String × Option String)) : Nat :=
  (results.filter (fun p => decide (p.1 = category) && p.2.isNone)).length

end sighting

/-! ## Package `kaiju` -/

namespace kaiju

open sighting

/-- Type `Generator` of `kaiju.go`. -/
structure Generator where
  names : List String
  types : List String
  behaviors : List String
  sizes : List String
  deriving DecidableEq

/-- Function `NewGenerator`. -/
def NewGenerator : Generator :=
  { names := ["Gorgozilla", "Mechataur", "Tsunamius", "Pyroclast",
      "Vortexia", "Thundermaw", "Crystalfang", "Nebulox",
      "Seismodon", "Glacierus", "Plasmoid", "Terracrush"],
    types := ["Aquatic", "Terrestrial", "Aerial", "Subterranean",
      "Amphibious", "Cosmic", "Volcanic", "Arctic"],
    behaviors := ["aggressive", "territorial", "curious", "defensive",
      "migratory", "nocturnal", "predatory", "docile"],
    sizes := ["colossal", "massive", "enormous", "gigantic",
      "titanic", "monstrous", "immense", "gargantuan"] }

/-- The slice literal `locations` of `randomLocation`. -/
def locations : List Location :=
  [ { Latitude := 35.6762, Longitude := 139.6503, City := "Tokyo", Country := "Japan",
      Region := "Asia" },
    { Latitude := 37.7749, Longitude := -122.4194, City := "San Francisco", Country := "USA",
      Region := "North America" },
    { Latitude := -33.8688, Longitude := 151.2093, City := "Sydney", Country := "Australia",
      Region := "Oceania" },
    { Latitude := 51.5074, Longitude := -0.1278, City := "London", Country := "UK",
      Region := "Europe" },
    { Latitude := -22.9068, Longitude := -43.1729, City := "Rio de Janeiro",
      Country := "Brazil", Region := "South America" },
    { Latitude := 40.7128, Longitude := -74.0060, City := "New York", Country := "USA",
      Region := "North America" },
    { Latitude := 1.3521, Longitude := 103.8198, City := "Singapore", Country := "Singapore",
      Region := "Asia" },
    { Latitude := 64.1466, Longitude := -21.9426, City := "Reykjavik", Country := "Iceland",
      Region := "Europe" },
    { Latitude := -1.2921, Longitude := 36.8219, City := "Nairobi", Country := "Kenya",
      Region := "Africa" },
    { Latitude := 19.4326, Longitude := -99.1332, City := "Mexico City", Country := "Mexico",
      Region := "North America" } ]

/-- The zero value of `Location`. -/
def zeroLocation : Location :=
  { Latitude := 0, Longitude := 0, City := "", Country := "", Region := "" }

namespace Generator

/-- Method `Category`. -/
def Category (_g : Generator) : String := "kaiju"

/-- Method `randomInt`: a number in `[min, max]`, or an error. The integers
are unbounded here; the callers pass `0 ≤ min ≤ max ≤ 300`. -/
def randomInt (_g : Generator) (min max : Int) (w : World) : Except String Int × World :=
  if min > max then (.error "min cannot be greater than max", w)
  else
    match w.randInt (max - min + 1) with
    | (.error err, w1) => (.error err, w1)
    | (.ok n, w1) => (.ok (n + min), w1)

/-- The index that `randomLocation` reads, `idx, _ := g.randomInt(0, len(locations)-1)`:
the error is dropped and `idx` is then the `0` that `randomInt` returns with it. -/
def randomLocationIdx (g : Generator) (w : World) : Int × World :=
  match g.randomInt 0 ((locations.length : Int) - 1) w with
  | (.ok idx, w1) => (idx, w1)
  | (.error _, w1) => (0, w1)

/-- Method `randomLocation`: `locations[idx]`. An index outside the table, where
Go panics, reads the zero `Location` here. -/
def randomLocation (g : Generator) (w : World) : Location × World :=
  let (idx, w1) := g.randomLocationIdx w
  if 0 ≤ idx then (locations.getD idx.toNat zeroLocation, w1) else (zeroLocation, w1)

/-- Method `randomChoice`: `choices[idx]`, the index being in range as
`randomInt` returns it. -/
def randomChoice (g : Generator) (choices : List String) (w : World) :
    Except String String × World :=
  if choices.length = 0 then (.error "empty choices", w)
  else
    match g.randomInt 0 ((choices.length : Int) - 1) w with
    | (.error err, w1) => (.error err, w1)
    | (.ok idx, w1) => (.ok (choices.getD idx.toNat ""), w1)

/-- Method `Generate`. -/
def Generate (g : Generator) (w : World) : Except String Sighting × World :=
  let (loc, w1) := g.randomLocation w
  match g.randomChoice g.names w1 with
  | (.error err, w2) => (.error ("failed to generate name: " ++ err), w2)
  | (.ok name, w2) =>
  match g.randomChoice g.types w2 with
  | (.error err, w3) => (.error ("failed to generate type: " ++ err), w3)
  | (.ok kaijuType, w3) =>
  match g.randomChoice g.behaviors w3 with
  | (.error err, w4) => (.error ("failed to generate behavior: " ++ err), w4)
  | (.ok behavior, w4) =>
  match g.randomChoice g.sizes w4 with
  | (.error err, w5) => (.error ("failed to generate size: " ++ err), w5)
  | (.ok size, w5) =>
  match g.randomInt 50 300 w5 with
  | (.error err, w6) => (.error ("failed to generate height: " ++ err), w6)
  | (.ok height, w6) =>
    let (t1, w7) := w6.timeNow
    let (t2, w8) := w7.timeNow
    (.ok
      { ID := "kaiju-" ++ toString t1,
        Name := name,
        Type_ := kaijuType,
        Category := g.Category,
        Location := loc,
        Description :=
          "A " ++ size ++ " " ++ kaijuType ++ " kaiju displaying " ++ behavior ++ " behavior",
        Timestamp := t2,
        Attributes :=
          [("size", AnyValue.str size), ("behavior", AnyValue.str behavior),
           ("height", AnyValue.str (toString height ++ " meters"))] },
      w8)

/-- A `*kaiju.Generator` as a value of the interface `sighting.Generator`. -/
def toInterface (g : Generator) : sighting.Generator :=
  { Generate := g.Generate, Category := g.Category }

end Generator

end kaiju

/-! ## Package `storage` -/

namespace storage

open sighting

/-- Type `InMemoryStorage` of `storage.go` without its mutex. -/
structure InMemoryStorage where
  sightings : GoMap Sighting
  order : List String
  deriving DecidableEq

/-- Function `NewInMemoryStorage`. -/
def NewInMemoryStorage : InMemoryStorage :=
  { sightings := GoMap.empty, order := [] }

namespace InMemoryStorage

/-- Method `Add`: write the map entry, then append the id to `order`. -/
def Add (s : InMemoryStorage) (sighting : Sighting) : InMemoryStorage :=
  { sightings := s.sightings.set sighting.ID sighting,
    order := s.order ++ [sighting.ID] }

/-- Method `Get`: the map lookup with its `exists` flag. -/
def Get (s : InMemoryStorage) (id : String) : Sighting × Bool :=
  match s.sightings.get id with
  | some sighting => (sighting, true)
  | none => (Sighting.zero, false)

/-- The loop of `GetAll`, `for i := len(s.order) - 1; i >= 0; i--`, with
`n = i + 1` iterations still to run and `result` built so far. -/
def GetAll.loop (s : InMemoryStorage) : Nat → List Sighting → List Sighting
  | 0, result => result
  | i + 1, result =>
    match s.order[i]? with
    | none => result
    | some id =>
      match s.sightings.get id with
      | some sighting => GetAll.loop s i (result ++ [sighting])
      | none => GetAll.loop s i result

/-- Method `GetAll`. -/
def GetAll (s : InMemoryStorage) : List Sighting :=
  GetAll.loop s s.order.length []

/-- The loop of `GetByCategory`, as `GetAll.loop` with the category test. -/
def GetByCategory.loop (s : InMemoryStorage) (category : String) :
    Nat → List Sighting → List Sighting
  | 0, result => result
  | i + 1, result =>
    match s.order[i]? with
    | none => result
    | some id =>
      match s.sightings.get id with
      | some sighting =>
        if sighting.Category = category then
          GetByCategory.loop s category i (result ++ [sighting])
        else GetByCategory.loop s category i result
      | none => GetByCategory.loop s category i result

/-- Method `GetByCategory`. -/
def GetByCategory (s : InMemoryStorage) (category : String) : List Sighting :=
  GetByCategory.loop s category s.order.length []

/-- Method `Count`. -/
def Count (s : InMemoryStorage) : Nat := s.sightings.len

/-- Method `Clear`. -/
def Clear (_s : InMemoryStorage) : InMemoryStorage :=
  { sightings := GoMap.empty, order := [] }

end InMemoryStorage

/-- The store states that `NewInMemoryStorage`, `Add` and `Clear` produce. -/
inductive Reachable : InMemoryStorage → Prop
  | new : Reachable NewInMemoryStorage
  | add (s : InMemoryStorage) (r : Sighting) : Reachable s → Reachable (s.Add r)
  | clear (s : InMemoryStorage) : Reachable s → Reachable s.Clear

/-- Calling `Add` on each record of `rs` in list order. -/
def addAll (s : InMemoryStorage) (rs : List Sighting) : InMemoryStorage :=
  rs.foldl InMemoryStorage.Add s

/-- The body of the loop of `GenerateInitialSightings` for the index `i`. -/
def GenerateInitialSightings.body (registry : Registry) (i : Nat)
    (sw : InMemoryStorage × World) : InMemoryStorage × World :=
  match registry.Get "kaiju" with
  | .error _ => sw
  | .ok gen =>
    match gen.Generate sw.2 with
    | (.error _, w1) => (sw.1, w1)
    | (.ok sighting, w1) =>
      let (now, w2) := w1.timeNow
      (sw.1.Add { sighting with Timestamp := now + (-((i : Int) * 6) * timeHour) }, w2)

/-- Method `GenerateInitialSightings`: the loop `for i := 0; i < 5; i++`. -/
def InMemoryStorage.GenerateInitialSightings (s : InMemoryStorage) (registry : Registry)
    (w : World) : InMemoryStorage × World :=
  (List.range 5).foldl (fun sw i => GenerateInitialSightings.body registry i sw) (s, w)

/-- The runs of a set of concurrent `Add` calls: the mutex makes each call one
step, so a run picks any call that is still pending, runs it, and goes on until
none is left. `Interleaving pending s t`: the pending calls take `s` to `t`. -/
inductive Interleaving : List Sighting → InMemoryStorage → InMemoryStorage → Prop
  | done (s : InMemoryStorage) : Interleaving [] s s
  | step (before after : List Sighting) (r : Sighting) (s t : InMemoryStorage) :
      Interleaving (before ++ after) (s.Add r) t →
      Interleaving (before ++ r :: after) s t

/-- The invariant of the store: the map has one entry per key, every id of
`order` is a key, and the record stored under a key carries that id. -/
structure Inv (s : InMemoryStorage) : Prop where
  keysNodup : s.sightings.keys.Nodup
  orderKeys : ∀ id ∈ s.order, id ∈ s.sightings.keys
  idOfKey : ∀ k v, s.sightings.get k = some v → v.ID = k

end storage

/-! ## Concrete inputs -/

/-- A clock that advances by a microsecond per reading and a random source
whose `k`-th outcome is `7 * k + 3`. -/
def tickingWorld : World :=
  { now := fun k => 1700000000000000000 + 1000 * k, nowCalls := 0,
    random := fun k => .ok (7 * k + 3), randomCalls := 0 }

/-- A clock whose readings all fall on the same nanosecond, with the random
source of `tickingWorld`. -/
def frozenWorld : World :=
  { now := fun _ => 1700000000000000000, nowCalls := 0,
    random := fun k => .ok (7 * k + 3), randomCalls := 0 }

/-- A record with the given id, category and timestamp. -/
def sampleSighting (id category : String) (timestamp : Int) : sighting.Sighting :=
  { ID := id, Name := "Nebulox", Type_ := "Cosmic", Category := category,
    Location := { Latitude := 51.5074, Longitude := -0.1278, City := "London",
                  Country := "UK", Region := "Europe" },
    Description := "A massive Cosmic kaiju displaying curious behavior",
    Timestamp := timestamp,
    Attributes := [("size", sighting.AnyValue.str "massive")] }

/-- Three records with distinct ids, the first inserted carrying the latest timestamp. -/
def sampleRecords : List sighting.Sighting :=
  [sampleSighting "kaiju-1" "kaiju" 300, sampleSighting "yeti-2" "yeti" 200,
   sampleSighting "kaiju-3" "kaiju" 100]

/-- The store after three `Add`s, a `Clear` and one more `Add`. -/
def sampleStore : storage.InMemoryStorage :=
  ((storage.addAll storage.NewInMemoryStorage sampleRecords).Clear).Add
    (sampleSighting "kaiju-1" "kaiju" 300)

/-- A generator that always fails. -/
def failingGenerator : sighting.Generator :=
  { Generate := fun w => (.error "unavailable", w), Category := "kaiju" }

/-- The registry of `main.go`: the kaiju generator under the key `"kaiju"`. -/
def mainRegistry : sighting.Registry :=
  (sighting.NewRegistry.Register "kaiju" kaiju.NewGenerator.toInterface).2

/-- The record that the kaiju generator produces in `tickingWorld`. -/
def tickingRecord : sighting.Sighting :=
  match (kaiju.NewGenerator.Generate tickingWorld).1 with
  | .ok r => r
  | .error _ => sighting.Sighting.zero

/-! ## Lemmas on Go maps -/

namespace GoMap

theorem get_set_same {V : Type} (m : GoMap V) (k : String) (v : V) :
    (m.set k v).get k = some v := by
  induction m with
  | nil => simp [set, get]
  | cons e m ih =>
    obtain ⟨k', v'⟩ := e
    by_cases h : k' = k
    · simp [set, get, h]
    · simp [set, get, h, ih]

theorem get_set_other {V : Type} (m : GoMap V) (k k2 : String) (v : V) (h : k ≠ k2) :
    (m.set k v).get k2 = m.get k2 := by
  induction m with
  | nil => simp [set, get, h]
  | cons e m ih =>
    obtain ⟨k', v'⟩ := e
    by_cases h1 : k' = k
    · subst h1
      simp [set, get, h]
    · by_cases h2 : k' = k2
      · subst h2
        simp [set, get, h1]
      · simp [set, get, h1, h2, ih]

theorem keys_set {V : Type} (m : GoMap V) (k : String) (v : V) :
    (m.set k v).keys = if k ∈ m.keys then m.keys else m.keys ++ [k] := by
  induction m with
  | nil => simp [set, keys]
  | cons e m ih =>
    obtain ⟨k', v'⟩ := e
    by_cases h : k' = k
    · subst h
      simp [set, keys]
    · have hk : ¬ k = k' := fun e => h e.symm
      simp only [keys] at ih
      by_cases hm : k ∈ List.map Prod.fst m
      · simp [set, keys, h, hk, hm, ih]
      · simp [set, keys, h, hk, hm, ih]

theorem mem_keys_iff {V : Type} (m : GoMap V) (k : String) :
    k ∈ m.keys ↔ ∃ v, m.get k = some v := by
  induction m with
  | nil => simp [get, keys]
  | cons e m ih =>
    obtain ⟨k', v'⟩ := e
    simp only [keys] at ih
    by_cases h : k' = k
    · subst h
      simp [get, keys]
    · have hk : ¬ k = k' := fun e => h e.symm
      simp [get, keys, h, hk, ih]

theorem get_eq_none_iff {V : Type} (m : GoMap V) (k : String) :
    m.get k = none ↔ k ∉ m.keys := by
  rw [mem_keys_iff]
  cases m.get k <;> simp

theorem keys_set_nodup {V : Type} (m : GoMap V) (k : String) (v : V) (h : m.keys.Nodup) :
    (m.set k v).keys.Nodup := by
  rw [keys_set]
  by_cases hm : k ∈ m.keys
  · simpa [hm] using h
  · simp only [hm, if_false]
    exact List.Nodup.append h (List.nodup_singleton k) (by simpa using hm)

theorem len_eq_card_keys {V : Type} (m : GoMap V) (h : m.keys.Nodup) :
    m.len = m.keys.toFinset.card := by
  rw [List.toFinset_card_of_nodup h]
  simp [len, keys]

theorem keys_set_toFinset {V : Type} (m : GoMap V) (k : String) (v : V) :
    (m.set k v).keys.toFinset = insert k m.keys.toFinset := by
  rw [keys_set]
  by_cases hm : k ∈ m.keys
  · simp [hm]
  · ext x
    simp [hm, or_comm]

end GoMap

/-! ## Lemmas on the store -/

namespace storage

open sighting InMemoryStorage

theorem getAll_loop_eq (s : InMemoryStorage) (n : Nat) (hn : n ≤ s.order.length)
    (result : List Sighting) :
    GetAll.loop s n result
      = result ++ ((s.order.take n).reverse.filterMap s.sightings.get) := by
  induction n generalizing result with
  | zero => simp [GetAll.loop]
  | succ i ih =>
    have hi : i < s.order.length := hn
    have htake : s.order.take (i + 1) = s.order.take i ++ [s.order[i]] := by
      rw [List.take_succ, List.getElem?_eq_getElem hi]
      rfl
    rw [GetAll.loop, List.getElem?_eq_getElem hi, htake]
    simp only [List.reverse_append, List.reverse_cons, List.reverse_nil, List.nil_append,
      List.singleton_append, List.filterMap_cons]
    cases hg : s.sightings.get s.order[i] with
    | none => simp [ih (Nat.le_of_lt hi)]
    | some r => simp [ih (Nat.le_of_lt hi)]

/-- Method `GetAll` walks `order` backwards and keeps the ids the map has. -/
theorem getAll_eq (s : InMemoryStorage) :
    s.GetAll = s.order.reverse.filterMap s.sightings.get := by
  unfold GetAll
  rw [getAll_loop_eq s _ (Nat.le_refl _)]
  simp

theorem addAll_cons (s : InMemoryStorage) (r : Sighting) (rs : List Sighting) :
    addAll s (r :: rs) = addAll (s.Add r) rs := rfl

theorem addAll_append (s : InMemoryStorage) (rs ps : List Sighting) :
    addAll s (rs ++ ps) = addAll (addAll s rs) ps := by
  simp [addAll, List.foldl_append]

theorem order_addAll (s : InMemoryStorage) (rs : List Sighting) :
    (addAll s rs).order = s.order ++ rs.map (fun r => r.ID) := by
  induction rs generalizing s with
  | nil => simp [addAll]
  | cons r rs ih =>
    rw [addAll_cons, ih]
    simp [InMemoryStorage.Add]

theorem get_addAll_of_not_mem (s : InMemoryStorage) (rs : List Sighting) (id : String)
    (h : id ∉ rs.map (fun r => r.ID)) :
    (addAll s rs).sightings.get id = s.sightings.get id := by
  induction rs generalizing s with
  | nil => rfl
  | cons r rs ih =>
    simp only [List.map_cons, List.mem_cons, not_or] at h
    rw [addAll_cons, ih _ h.2]
    exact GoMap.get_set_other _ _ _ _ (fun e => h.1 e.symm)

theorem get_addAll_of_mem (s : InMemoryStorage) (rs : List Sighting) (r : Sighting)
    (hnd : (rs.map (fun r => r.ID)).Nodup) (hr : r ∈ rs) :
    (addAll s rs).sightings.get r.ID = some r := by
  induction rs generalizing s with
  | nil => simp at hr
  | cons r0 rs ih =>
    simp only [List.map_cons, List.nodup_cons] at hnd
    rw [addAll_cons]
    rcases List.mem_cons.1 hr with h | h
    · subst h
      rw [get_addAll_of_not_mem _ _ _ hnd.1]
      exact GoMap.get_set_same _ _ _
    · exact ih _ hnd.2 h

/-- After adding records with pairwise distinct ids to the empty store,
`GetAll` is the reversed list. -/
theorem getAll_addAll_new (rs : List Sighting) (hnd : (rs.map (fun r => r.ID)).Nodup) :
    (addAll NewInMemoryStorage rs).GetAll = rs.reverse := by
  rw [getAll_eq, order_addAll]
  simp only [NewInMemoryStorage, List.nil_append, ← List.map_reverse, List.filterMap_map]
  have h : ∀ r ∈ rs.reverse,
      ((addAll { sightings := GoMap.empty, order := [] } rs).sightings.get ∘ fun r => r.ID) r
        = some r := by
    intro r hr
    exact get_addAll_of_mem _ _ _ hnd (List.mem_reverse.1 hr)
  rw [List.filterMap_congr h]
  simp

theorem getByCategory_loop_eq (s : InMemoryStorage) (category : String) (n : Nat)
    (hn : n ≤ s.order.length) (result : List Sighting) :
    GetByCategory.loop s category n result
      = result ++ (((s.order.take n).reverse.filterMap s.sightings.get).filter
          (fun r => decide (r.Category = category))) := by
  induction n generalizing result with
  | zero => simp [GetByCategory.loop]
  | succ i ih =>
    have hi : i < s.order.length := hn
    have htake : s.order.take (i + 1) = s.order.take i ++ [s.order[i]] := by
      rw [List.take_succ, List.getElem?_eq_getElem hi]
      rfl
    rw [GetByCategory.loop, List.getElem?_eq_getElem hi, htake]
    simp only [List.reverse_append, List.reverse_cons, List.reverse_nil, List.nil_append,
      List.singleton_append, List.filterMap_cons]
    cases hg : s.sightings.get s.order[i] with
    | none => simp [ih (Nat.le_of_lt hi)]
    | some r =>
      by_cases hc : r.Category = category
      · simp [ih (Nat.le_of_lt hi), hc]
      · simp [ih (Nat.le_of_lt hi), hc]

/-- Method `GetByCategory` is `GetAll` followed by the category filter. -/
theorem getByCategory_eq (s : InMemoryStorage) (category : String) :
    s.GetByCategory category
      = s.GetAll.filter (fun r => decide (r.Category = category)) := by
  rw [getAll_eq]
  unfold GetByCategory
  rw [getByCategory_loop_eq s category _ (Nat.le_refl _)]
  simp

theorem inv_new : Inv NewInMemoryStorage :=
  ⟨by simp [NewInMemoryStorage, GoMap.empty, GoMap.keys],
   by simp [NewInMemoryStorage],
   by simp [NewInMemoryStorage, GoMap.empty, GoMap.get]⟩

theorem inv_clear (s : InMemoryStorage) : Inv s.Clear := inv_new

theorem inv_add (s : InMemoryStorage) (r : Sighting) (h : Inv s) : Inv (s.Add r) := by
  refine ⟨GoMap.keys_set_nodup _ _ _ h.keysNodup, ?_, ?_⟩
  · intro id hid
    have hid2 : id ∈ s.order ∨ id = r.ID := by
      simpa [InMemoryStorage.Add] using hid
    show id ∈ (s.sightings.set r.ID r).keys
    rw [← List.mem_toFinset, GoMap.keys_set_toFinset, Finset.mem_insert, List.mem_toFinset]
    rcases hid2 with h1 | h1
    · exact Or.inr (h.orderKeys id h1)
    · exact Or.inl h1
  · intro k v hk
    by_cases hkr : r.ID = k
    · subst hkr
      have : some r = some v := by
        rw [← GoMap.get_set_same s.sightings r.ID r]
        exact hk
      cases this
      rfl
    · have hk2 : (s.sightings.set r.ID r).get k = some v := hk
      rw [GoMap.get_set_other _ _ _ _ hkr] at hk2
      exact h.idOfKey k v hk2

theorem inv_of_reachable (s : InMemoryStorage) (h : Reachable s) : Inv s := by
  induction h with
  | new => exact inv_new
  | add s r _ ih => exact inv_add s r ih
  | clear s _ _ => exact inv_clear s

theorem inv_addAll (s : InMemoryStorage) (rs : List Sighting) (h : Inv s) :
    Inv (addAll s rs) := by
  induction rs generalizing s with
  | nil => exact h
  | cons r rs ih => exact ih _ (inv_add s r h)

theorem reachable_addAll (s : InMemoryStorage) (rs : List Sighting) (h : Reachable s) :
    Reachable (addAll s rs) := by
  induction rs generalizing s with
  | nil => exact h
  | cons r rs ih => exact ih _ (Reachable.add s r h)

theorem keys_addAll_toFinset (s : InMemoryStorage) (rs : List Sighting) :
    (addAll s rs).sightings.keys.toFinset
      = s.sightings.keys.toFinset ∪ (rs.map (fun r => r.ID)).toFinset := by
  induction rs generalizing s with
  | nil => simp [addAll]
  | cons r rs ih =>
    rw [addAll_cons, ih]
    have : (s.Add r).sightings.keys.toFinset = insert r.ID s.sightings.keys.toFinset :=
      GoMap.keys_set_toFinset _ _ _
    rw [this]
    ext x
    simp only [List.map_cons, List.toFinset_cons, Finset.mem_union, Finset.mem_insert]
    tauto

theorem filterMap_get_ids (m : GoMap Sighting) (l : List String)
    (h : ∀ id ∈ l, ∃ v, m.get id = some v ∧ v.ID = id) :
    (l.filterMap m.get).map (fun r => r.ID) = l := by
  induction l with
  | nil => rfl
  | cons id l ih =>
    obtain ⟨v, hv, hid⟩ := h id (List.mem_cons_self _ _)
    have ih2 := ih (fun x hx => h x (List.mem_cons_of_mem _ hx))
    simp [List.filterMap_cons, hv, hid, ih2]

theorem interleaving_is_order (pending : List Sighting) (s t : InMemoryStorage)
    (h : Interleaving pending s t) :
    ∃ sched : List Sighting, sched.Perm pending ∧ t = addAll s sched := by
  induction h with
  | done s => exact ⟨[], List.Perm.refl _, rfl⟩
  | step before after r s t _ ih =>
    obtain ⟨sched, hp, ht⟩ := ih
    exact ⟨r :: sched, (List.Perm.cons r hp).trans List.perm_middle.symm, ht⟩

/-- Every order of the pending calls is a run: the relation leaves none out. -/
theorem interleaving_of_order (sched pending : List Sighting) (s : InMemoryStorage)
    (h : sched.Perm pending) : Interleaving pending s (addAll s sched) := by
  induction sched generalizing pending s with
  | nil =>
    rw [List.nil_perm.1 h]
    exact Interleaving.done s
  | cons r sched ih =>
    have hr : r ∈ pending := h.subset (List.mem_cons_self _ _)
    obtain ⟨before, after, hsplit⟩ := List.append_of_mem hr
    subst hsplit
    have h2 : sched.Perm (before ++ after) :=
      List.Perm.cons_inv (h.trans List.perm_middle)
    exact Interleaving.step before after r s _ (ih _ _ h2)

/-- Under the invariant `GetAll` reads one record per entry of `order`. -/
theorem getAll_eq_map_get (s : InMemoryStorage) (h : Inv s) :
    s.GetAll = s.order.reverse.map (fun id => (s.Get id).1) := by
  rw [getAll_eq]
  have hgen : ∀ l : List String, (∀ id ∈ l, id ∈ s.sightings.keys) →
      l.filterMap s.sightings.get = l.map (fun id => (s.Get id).1) := by
    intro l hl
    induction l with
    | nil => rfl
    | cons id l ih =>
      obtain ⟨v, hv⟩ := (GoMap.mem_keys_iff _ _).1 (hl id (List.mem_cons_self _ _))
      have ih2 := ih (fun x hx => hl x (List.mem_cons_of_mem _ hx))
      simp [List.filterMap_cons, hv, ih2, InMemoryStorage.Get]
  exact hgen _ (fun id hid => h.orderKeys id (List.mem_reverse.1 hid))

/-- In a reachable state every key of the map is an id of `order`. -/
theorem keys_subset_order (s : InMemoryStorage) (h : Reachable s) :
    ∀ k ∈ s.sightings.keys, k ∈ s.order := by
  induction h with
  | new => simp [NewInMemoryStorage, GoMap.empty, GoMap.keys]
  | add s r _ ih =>
    intro k hk
    have hk2 : k ∈ (s.sightings.set r.ID r).keys := hk
    rw [← List.mem_toFinset, GoMap.keys_set_toFinset, Finset.mem_insert,
      List.mem_toFinset] at hk2
    show k ∈ s.order ++ [r.ID]
    rcases hk2 with h1 | h1
    · simp [h1]
    · simp [ih k h1]
  | clear s _ _ => simp [InMemoryStorage.Clear, GoMap.empty, GoMap.keys]

/-- In a reachable state the keys of the map are the ids of `order`. -/
theorem keys_toFinset_eq_order (s : InMemoryStorage) (h : Reachable s) :
    s.sightings.keys.toFinset = s.order.toFinset := by
  ext k
  simp only [List.mem_toFinset]
  exact ⟨keys_subset_order s h k, (inv_of_reachable s h).orderKeys k⟩

end storage

/-! ## Lemmas on the registry -/

namespace sighting

theorem register_fst_eq_none_iff (r : Registry) (c : String) (g : Generator) :
    (r.Register c g).1 = none ↔ r.generators.get c = none := by
  unfold Registry.Register
  cases r.generators.get c <;> simp

theorem get_after_register_other (r : Registry) (c c2 : String) (g g0 : Generator)
    (h : r.generators.get c = some g0) :
    ∃ g1, (r.Register c2 g).2.generators.get c = some g1 := by
  unfold Registry.Register
  cases h2 : r.generators.get c2 with
  | some _ => exact ⟨g0, h⟩
  | none =>
    have hne : c2 ≠ c := by
      intro e
      rw [e, h] at h2
      cases h2
    exact ⟨g0, by simpa [GoMap.get_set_other _ _ _ _ hne] using h⟩

theorem successesFor_of_present (c : String) (calls : List (String × Generator))
    (r : Registry) (g0 : Generator) (h : r.generators.get c = some g0) :
    successesFor c (registerAll r calls).1 = 0 := by
  induction calls generalizing r g0 with
  | nil => rfl
  | cons call calls ih =>
    obtain ⟨c2, g⟩ := call
    obtain ⟨g1, hg1⟩ := get_after_register_other r c c2 g g0 h
    have hrest := ih _ g1 hg1
    unfold successesFor at hrest ⊢
    simp only [registerAll, List.filter_cons]
    by_cases hc : c2 = c
    · subst hc
      have hfail : (r.Register c2 g).1 ≠ none := by
        rw [Ne, register_fst_eq_none_iff, h]
        simp
      cases hr : (r.Register c2 g).1 with
      | none => exact absurd hr hfail
      | some e => simpa using hrest
    · simpa [hc] using hrest

theorem successesFor_le_one (c : String) (calls : List (String × Generator))
    (r : Registry) : successesFor c (registerAll r calls).1 ≤ 1 := by
  induction calls generalizing r with
  | nil => simp [successesFor, registerAll]
  | cons call calls ih =>
    obtain ⟨c2, g⟩ := call
    have hrest := ih (r.Register c2 g).2
    by_cases hc : c2 = c
    · subst hc
      cases hr : (r.Register c2 g).1 with
      | none =>
        have habs : r.generators.get c2 = none := (register_fst_eq_none_iff r c2 g).1 hr
        have hin : (r.Register c2 g).2.generators.get c2 = some g := by
          simp only [Registry.Register, habs]
          exact GoMap.get_set_same _ _ _
        have h0 := successesFor_of_present c2 calls _ g hin
        unfold successesFor at h0 ⊢
        simp only [registerAll, List.filter_cons, hr]
        simp [h0]
      | some e =>
        unfold successesFor at hrest ⊢
        simp only [registerAll, List.filter_cons, hr]
        simpa using hrest
    · unfold successesFor at hrest ⊢
      simp only [registerAll, List.filter_cons]
      simpa [hc] using hrest

end sighting

/-! ## Lemmas on the kaiju generator -/

namespace kaiju

open sighting

/-- Every record that `Generate` returns carries the generator's `Category()`. -/
theorem generate_category (g : Generator) (w w' : World) (rec : Sighting)
    (h : g.Generate w = (.ok rec, w')) : rec.Category = g.Category := by
  unfold Generator.Generate at h
  simp only at h
  repeat' split at h
  all_goals first
    | (cases h; done)
    | (simp only [Prod.mk.injEq, Except.ok.injEq] at h
       rw [← h.1])

/-- A number that `randomInt` returns lies in `[min, max]`. -/
theorem randomInt_range (g : Generator) (min max n : Int) (w w' : World)
    (h : g.randomInt min max w = (.ok n, w')) : min ≤ n ∧ n ≤ max := by
  unfold Generator.randomInt at h
  by_cases hmm : min > max
  · simp [hmm] at h
  · have hpos : 0 < max - min + 1 := by omega
    simp only [hmm, if_false] at h
    unfold World.randInt at h
    cases hr : w.random w.randomCalls with
    | error e => simp [hr] at h
    | ok v =>
      simp only [hr, Prod.mk.injEq, Except.ok.injEq] at h
      have h1 := Int.emod_nonneg (v : Int) (ne_of_gt hpos)
      have h2 := Int.emod_lt_of_pos (v : Int) hpos
      omega

/-- The index that `randomLocation` reads is within the location table. -/
theorem randomLocationIdx_bounds (g : Generator) (w : World) :
    0 ≤ (g.randomLocationIdx w).1 ∧ (g.randomLocationIdx w).1 < (locations.length : Int) := by
  unfold Generator.randomLocationIdx
  have hlen : (locations.length : Int) = 10 := rfl
  cases hr : g.randomInt 0 ((locations.length : Int) - 1) w with
  | mk res w1 =>
    cases res with
    | error e => simp [hlen]
    | ok idx =>
      have := randomInt_range g _ _ idx w w1 hr
      simp only
      omega

/-- Method `randomLocation` returns an entry of the location table. -/
theorem randomLocation_mem (g : Generator) (w : World) :
    (g.randomLocation w).1 ∈ locations := by
  have hb := randomLocationIdx_bounds g w
  unfold Generator.randomLocation
  have hnn : 0 ≤ (g.randomLocationIdx w).1 := hb.1
  have hlt : (g.randomLocationIdx w).1.toNat < locations.length := by omega
  simp only [hnn, if_true]
  rw [List.getD_eq_getElem _ _ hlt]
  exact List.getElem_mem _

/-- Every entry of the location table has its coordinates in range. -/
theorem locations_in_range (l : Location) (h : l ∈ locations) :
    -90 ≤ l.Latitude ∧ l.Latitude ≤ 90 ∧ -180 ≤ l.Longitude ∧ l.Longitude ≤ 180 := by
  simp only [locations, List.mem_cons, List.mem_singleton, List.not_mem_nil, or_false] at h
  rcases h with h | h | h | h | h | h | h | h | h | h <;> subst h <;> norm_num

/-- The fields of a record that `Generate` returns which do not depend on the
name tables: the location is the one `randomLocation` drew first, the id is
`kaiju-` followed by a clock reading, and there are three attributes. -/
theorem generate_fields (g : Generator) (w w' : World) (rec : Sighting)
    (h : g.Generate w = (.ok rec, w')) :
    rec.Location = (g.randomLocation w).1 ∧
    (∃ t : Int, rec.ID = "kaiju-" ++ toString t) ∧
    rec.Attributes.keys = ["size", "behavior", "height"] := by
  unfold Generator.Generate at h
  simp only at h
  repeat' split at h
  all_goals first
    | (cases h; done)
    | (simp only [Prod.mk.injEq, Except.ok.injEq] at h
       rw [← h.1]
       exact ⟨rfl, ⟨_, rfl⟩, rfl⟩)

end kaiju

/-! ## The claims -/

open sighting storage storage.InMemoryStorage

/-- C1: for every list of records with pairwise distinct ids, adding them in
list order to a store made by `NewInMemoryStorage` and then calling `GetAll`
returns the reversed list, most recently inserted first; the `Timestamp`
fields play no part. In particular adding `r1`, `r2`, `r3` yields `[r3, r2, r1]`. -/
theorem C1_getAll_reverse_insertion (rs : List Sighting)
    (hnd : (rs.map (fun r => r.ID)).Nodup) :
    (addAll NewInMemoryStorage rs).GetAll = rs.reverse ∧
    ∀ r1 r2 r3 : Sighting, r1.ID ≠ r2.ID → r1.ID ≠ r3.ID → r2.ID ≠ r3.ID →
      (((NewInMemoryStorage.Add r1).Add r2).Add r3).GetAll = [r3, r2, r1] := by
  refine ⟨getAll_addAll_new rs hnd, ?_⟩
  intro r1 r2 r3 h12 h13 h23
  have h := getAll_addAll_new [r1, r2, r3] (by simp [h12, h13, h23])
  simpa [addAll] using h

/-- C1 at three records whose timestamps decrease with insertion. -/
theorem C1_getAll_reverse_insertion_witness :
    (sampleRecords.map (fun r => r.ID)).Nodup ∧
    (addAll NewInMemoryStorage sampleRecords).GetAll = sampleRecords.reverse ∧
    (sampleRecords.reverse.map (fun r => r.Timestamp)) = [100, 200, 300] :=
  ⟨by decide, (C1_getAll_reverse_insertion sampleRecords (by decide)).1, by decide⟩

/-- C2: in every store state reachable by `Add` and `Clear`, `Get(r.ID)` after
`Add(r)` returns `(r, true)`, the stored record being `r` itself, and it still
returns that after later `Add`s of records with other ids. -/
theorem C2_get_after_add (s : InMemoryStorage) (_hs : Reachable s) (r : Sighting)
    (later : List Sighting) (hne : ∀ r2 ∈ later, r2.ID ≠ r.ID) :
    (s.Add r).Get r.ID = (r, true) ∧
    (addAll (s.Add r) later).Get r.ID = (r, true) ∧
    ∀ r2 : Sighting, r2.ID ≠ r.ID →
      ((s.Add r).Add r2).Get r.ID = (s.Add r).Get r.ID := by
  have h1 : (s.Add r).sightings.get r.ID = some r := GoMap.get_set_same _ _ _
  have h2 : (addAll (s.Add r) later).sightings.get r.ID = some r := by
    rw [get_addAll_of_not_mem _ _ _ (by
      intro hmem
      obtain ⟨r2, hr2, hid⟩ := List.mem_map.1 hmem
      exact hne r2 hr2 hid)]
    exact h1
  have h3 : ∀ r2 : Sighting, r2.ID ≠ r.ID →
      ((s.Add r).Add r2).sightings.get r.ID = some r := by
    intro r2 h
    show ((s.Add r).sightings.set r2.ID r2).get r.ID = some r
    rw [GoMap.get_set_other _ _ _ _ h]
    exact h1
  refine ⟨by simp only [InMemoryStorage.Get, h1], by simp only [InMemoryStorage.Get, h2], ?_⟩
  intro r2 h
  simp only [InMemoryStorage.Get, h1, h3 r2 h]

/-- C2 on `sampleStore`, for a record that overwrites the id already present
and two later records with other ids. -/
theorem C2_get_after_add_witness :
    Reachable sampleStore ∧
    (∀ r2 ∈ [sampleSighting "yeti-2" "yeti" 7, sampleSighting "kaiju-3" "kaiju" 9],
      r2.ID ≠ (sampleSighting "kaiju-1" "kaiju" 5).ID) ∧
    (sampleStore.Add (sampleSighting "kaiju-1" "kaiju" 5)).Get "kaiju-1"
      = (sampleSighting "kaiju-1" "kaiju" 5, true) ∧
    (addAll (sampleStore.Add (sampleSighting "kaiju-1" "kaiju" 5))
        [sampleSighting "yeti-2" "yeti" 7, sampleSighting "kaiju-3" "kaiju" 9]).Get "kaiju-1"
      = (sampleSighting "kaiju-1" "kaiju" 5, true) :=
  ⟨Reachable.add _ _ (Reachable.clear _ (reachable_addAll _ _ Reachable.new)),
   by decide,
   (C2_get_after_add sampleStore
     (Reachable.add _ _ (Reachable.clear _ (reachable_addAll _ _ Reachable.new)))
     (sampleSighting "kaiju-1" "kaiju" 5)
     [sampleSighting "yeti-2" "yeti" 7, sampleSighting "kaiju-3" "kaiju" 9] (by decide)).1,
   (C2_get_after_add sampleStore
     (Reachable.add _ _ (Reachable.clear _ (reachable_addAll _ _ Reachable.new)))
     (sampleSighting "kaiju-1" "kaiju" 5)
     [sampleSighting "yeti-2" "yeti" 7, sampleSighting "kaiju-3" "kaiju" 9] (by decide)).2.1⟩

/-- C3: if `Register(c, g)` succeeds, a following `Register(c, g2)` returns the
duplicate-category error and leaves the registry as it was, so `Get(c)` still
returns `g` and `Categories` is unchanged; `Register` succeeds exactly when the
category was absent, and among any sequence of `Register` calls at most one
succeeds for a given category. -/
theorem C3_register_rejects_duplicate (r : Registry) (c : String) (g g2 : Generator)
    (h : (r.Register c g).1 = none) :
    ((r.Register c g).2.Register c g2).1
      = some ("generator for category " ++ c ++ " already registered") ∧
    ((r.Register c g).2.Register c g2).2 = (r.Register c g).2 ∧
    (r.Register c g).2.Get c = .ok g ∧
    ((r.Register c g).2.Register c g2).2.Get c = .ok g ∧
    ((r.Register c g).2.Register c g2).2.Categories = (r.Register c g).2.Categories ∧
    (∀ (r0 : Registry) (c0 : String) (g0 : Generator),
      (r0.Register c0 g0).1 = none ↔ c0 ∉ r0.Categories) ∧
    (∀ (r0 : Registry) (calls : List (String × Generator)) (c0 : String),
      successesFor c0 (registerAll r0 calls).1 ≤ 1) := by
  have habs : r.generators.get c = none := (register_fst_eq_none_iff r c g).1 h
  have hin : (r.Register c g).2.generators.get c = some g := by
    simp only [Registry.Register, habs]
    exact GoMap.get_set_same _ _ _
  have hget : (r.Register c g).2.Get c = .ok g := by
    simp only [Registry.Get, hin]
  have hsame : ((r.Register c g).2.Register c g2).2 = (r.Register c g).2 := by
    generalize (r.Register c g).2 = r1 at hin
    simp only [Registry.Register, hin]
  refine ⟨?_, hsame, hget, ?_, ?_, ?_, ?_⟩
  · generalize (r.Register c g).2 = r1 at hin
    simp only [Registry.Register, hin]
  · rw [hsame]
    exact hget
  · rw [hsame]
  · intro r0 c0 g0
    rw [register_fst_eq_none_iff]
    exact GoMap.get_eq_none_iff _ _
  · intro r0 calls c0
    exact successesFor_le_one c0 calls r0

/-- C3 on the empty registry: the kaiju generator registers under `"kaiju"`,
and a second generator offered for `"kaiju"` is turned away. -/
theorem C3_register_rejects_duplicate_witness :
    (NewRegistry.Register "kaiju" kaiju.NewGenerator.toInterface).1 = none ∧
    (mainRegistry.Register "kaiju" failingGenerator).1
      = some "generator for category kaiju already registered" ∧
    (mainRegistry.Register "kaiju" failingGenerator).2 = mainRegistry ∧
    (mainRegistry.Register "kaiju" failingGenerator).2.Get "kaiju"
      = .ok kaiju.NewGenerator.toInterface :=
  ⟨rfl,
   (C3_register_rejects_duplicate NewRegistry "kaiju" kaiju.NewGenerator.toInterface
      failingGenerator rfl).1,
   (C3_register_rejects_duplicate NewRegistry "kaiju" kaiju.NewGenerator.toInterface
      failingGenerator rfl).2.1,
   (C3_register_rejects_duplicate NewRegistry "kaiju" kaiju.NewGenerator.toInterface
      failingGenerator rfl).2.2.2.1⟩

/-- C4: in every store state reachable by `Add` and `Clear`, `GetByCategory(c)`
is `GetAll()` filtered to the records whose `Category` is exactly `c`, in the
same relative order: only records of category `c`, none of them omitted. -/
theorem C4_getByCategory_filters_getAll (s : InMemoryStorage) (_hs : Reachable s)
    (c : String) :
    s.GetByCategory c = s.GetAll.filter (fun r => decide (r.Category = c)) ∧
    (∀ r ∈ s.GetByCategory c, r.Category = c) ∧
    (∀ r ∈ s.GetAll, r.Category = c → r ∈ s.GetByCategory c) ∧
    (s.GetByCategory c).Sublist s.GetAll := by
  have h := getByCategory_eq s c
  refine ⟨h, ?_, ?_, ?_⟩
  · intro r hr
    rw [h, List.mem_filter] at hr
    simpa using hr.2
  · intro r hr hc
    rw [h, List.mem_filter]
    exact ⟨hr, by simpa using hc⟩
  · rw [h]
    exact List.filter_sublist _

/-- C4 on the store holding `sampleRecords`, whose middle record is a yeti. -/
theorem C4_getByCategory_filters_getAll_witness :
    Reachable (addAll NewInMemoryStorage sampleRecords) ∧
    (addAll NewInMemoryStorage sampleRecords).GetByCategory "kaiju"
      = (addAll NewInMemoryStorage sampleRecords).GetAll.filter
          (fun r => decide (r.Category = "kaiju")) :=
  ⟨reachable_addAll _ _ Reachable.new,
   (C4_getByCategory_filters_getAll _ (reachable_addAll _ _ Reachable.new) "kaiju").1⟩

/-- C5: after any sequence of `Add` calls on a store since its creation or its
last `Clear`, `Count()` is the number of distinct ids among the added records,
so adding a record whose id is already there leaves it unchanged; and right
after `Clear()`, on any store state, `Count()` is 0 and `GetAll()` is empty. -/
theorem C5_count_distinct_ids (s : InMemoryStorage) (rs : List Sighting) :
    (addAll NewInMemoryStorage rs).Count = (rs.map (fun r => r.ID)).toFinset.card ∧
    (addAll s.Clear rs).Count = (rs.map (fun r => r.ID)).toFinset.card ∧
    (∀ r : Sighting, r.ID ∈ rs.map (fun r => r.ID) →
      ((addAll s.Clear rs).Add r).Count = (addAll s.Clear rs).Count) ∧
    s.Clear.Count = 0 ∧ s.Clear.GetAll = [] := by
  have hcount : ∀ ps : List Sighting,
      (addAll NewInMemoryStorage ps).Count = (ps.map (fun r => r.ID)).toFinset.card := by
    intro ps
    show (addAll NewInMemoryStorage ps).sightings.len = _
    rw [GoMap.len_eq_card_keys _ (inv_addAll _ ps inv_new).keysNodup, keys_addAll_toFinset]
    simp [NewInMemoryStorage, GoMap.empty, GoMap.keys]
  refine ⟨hcount rs, hcount rs, ?_, rfl, rfl⟩
  intro r hr
  have h1 : (addAll s.Clear rs).Add r = addAll NewInMemoryStorage (rs ++ [r]) := by
    rw [addAll_append]
    rfl
  have h2 : addAll s.Clear rs = addAll NewInMemoryStorage rs := rfl
  rw [h1, h2, hcount, hcount]
  congr 1
  ext x
  simp only [List.map_append, List.map_cons, List.map_nil, List.toFinset_append,
    List.toFinset_cons, List.toFinset_nil, Finset.mem_union, Finset.mem_insert,
    List.mem_toFinset, Finset.not_mem_empty, or_false]
  constructor
  · rintro (h | h)
    · exact h
    · exact h ▸ hr
  · exact Or.inl

/-- C5 on `sampleStore` and four `Add`s that use three ids. -/
theorem C5_count_distinct_ids_witness :
    (addAll sampleStore.Clear
      (sampleRecords ++ [sampleSighting "kaiju-1" "kaiju" 5])).Count = 3 ∧
    sampleStore.Clear.Count = 0 ∧ sampleStore.Clear.GetAll = [] :=
  ⟨(C5_count_distinct_ids sampleStore
      (sampleRecords ++ [sampleSighting "kaiju-1" "kaiju" 5])).2.1.trans (by decide),
   (C5_count_distinct_ids sampleStore []).2.2.2⟩

/-- C6: in every store state reachable from `NewInMemoryStorage` by `Add` and
`Clear`, every id of `order` is a key of the map, so the lookups of `GetAll`
and `GetByCategory` always find a record: `GetAll` returns one record per
entry of `order`, the one stored under that id, and `GetByCategory` returns
those of them that have the category. -/
theorem C6_order_ids_are_keys (s : InMemoryStorage) (hs : Reachable s) :
    (∀ id ∈ s.order, id ∈ s.sightings.keys ∧ (s.Get id).2 = true) ∧
    s.GetAll = s.order.reverse.map (fun id => (s.Get id).1) ∧
    s.GetAll.length = s.order.length ∧
    s.GetAll.map (fun r => r.ID) = s.order.reverse ∧
    ∀ c : String, s.GetByCategory c
      = (s.order.reverse.map (fun id => (s.Get id).1)).filter
          (fun r => decide (r.Category = c)) := by
  have hinv := inv_of_reachable s hs
  have hkey : ∀ id ∈ s.order, ∃ v, s.sightings.get id = some v :=
    fun id hid => (GoMap.mem_keys_iff _ _).1 (hinv.orderKeys id hid)
  have hall : s.GetAll = s.order.reverse.map (fun id => (s.Get id).1) := by
    rw [getAll_eq]
    have : ∀ l : List String, (∀ id ∈ l, ∃ v, s.sightings.get id = some v) →
        l.filterMap s.sightings.get = l.map (fun id => (s.Get id).1) := by
      intro l hl
      induction l with
      | nil => rfl
      | cons id l ih =>
        obtain ⟨v, hv⟩ := hl id (List.mem_cons_self _ _)
        have ih2 := ih (fun x hx => hl x (List.mem_cons_of_mem _ hx))
        simp [List.filterMap_cons, hv, ih2, InMemoryStorage.Get]
    exact this _ (fun id hid => hkey id (List.mem_reverse.1 hid))
  refine ⟨?_, hall, ?_, ?_, ?_⟩
  · intro id hid
    obtain ⟨v, hv⟩ := hkey id hid
    exact ⟨hinv.orderKeys id hid, by simp [InMemoryStorage.Get, hv]⟩
  · rw [hall]
    simp
  · rw [getAll_eq]
    apply filterMap_get_ids
    intro id hid
    obtain ⟨v, hv⟩ := hkey id (List.mem_reverse.1 hid)
    exact ⟨v, hv, hinv.idOfKey id v hv⟩
  · intro c
    rw [getByCategory_eq, hall]

/-- C6 on a store that saw the same id added twice, a `Clear` and new `Add`s. -/
theorem C6_order_ids_are_keys_witness :
    Reachable (addAll sampleStore (sampleRecords ++ sampleRecords)) ∧
    (addAll sampleStore (sampleRecords ++ sampleRecords)).GetAll.length
      = (addAll sampleStore (sampleRecords ++ sampleRecords)).order.length :=
  ⟨reachable_addAll _ _
     (Reachable.add _ _ (Reachable.clear _ (reachable_addAll _ _ Reachable.new))),
   (C6_order_ids_are_keys _ (reachable_addAll _ _
     (Reachable.add _ _ (Reachable.clear _ (reachable_addAll _ _ Reachable.new))))).2.2.1⟩

/-- C7: when the `Add` calls for records with pairwise distinct ids run
concurrently on a new store, each as one atomic step, then for every
interleaving a `GetAll` issued after all of them returned contains every added
record exactly once and nothing else. -/
theorem C7_concurrent_adds_all_present (rs : List Sighting)
    (hnd : (rs.map (fun r => r.ID)).Nodup) (t : InMemoryStorage)
    (hrun : Interleaving rs NewInMemoryStorage t) :
    t.GetAll.Perm rs ∧ t.GetAll.Nodup ∧ (∀ r, r ∈ t.GetAll ↔ r ∈ rs) ∧
    ∀ r ∈ rs, t.GetAll.count r = 1 := by
  obtain ⟨sched, hp, ht⟩ := interleaving_is_order rs _ t hrun
  have hnd2 : (sched.map (fun r => r.ID)).Nodup := ((hp.map _).nodup_iff).2 hnd
  have hall : t.GetAll = sched.reverse := by
    rw [ht]
    exact getAll_addAll_new sched hnd2
  have hperm : t.GetAll.Perm rs := by
    rw [hall]
    exact (List.reverse_perm sched).trans hp
  have hrs : rs.Nodup := List.Nodup.of_map _ hnd
  have hnodup : t.GetAll.Nodup := (hperm.nodup_iff).2 hrs
  refine ⟨hperm, hnodup, fun r => hperm.mem_iff, ?_⟩
  intro r hr
  exact List.count_eq_one_of_mem hnodup (hperm.mem_iff.2 hr)

/-- C7 on the run of the three `Add`s of `sampleRecords` that takes the second
record first, then the third, then the first. -/
theorem C7_concurrent_adds_all_present_witness :
    (sampleRecords.map (fun r => r.ID)).Nodup ∧
    Interleaving sampleRecords NewInMemoryStorage
      (addAll NewInMemoryStorage
        [sampleSighting "yeti-2" "yeti" 200, sampleSighting "kaiju-3" "kaiju" 100,
         sampleSighting "kaiju-1" "kaiju" 300]) ∧
    (addAll NewInMemoryStorage
        [sampleSighting "yeti-2" "yeti" 200, sampleSighting "kaiju-3" "kaiju" 100,
         sampleSighting "kaiju-1" "kaiju" 300]).GetAll.Perm sampleRecords :=
  ⟨by decide,
   Interleaving.step [sampleSighting "kaiju-1" "kaiju" 300]
     [sampleSighting "kaiju-3" "kaiju" 100] _ _ _
     (Interleaving.step [sampleSighting "kaiju-1" "kaiju" 300] [] _ _ _
       (Interleaving.step [] [] _ _ _ (Interleaving.done _))),
   (C7_concurrent_adds_all_present sampleRecords (by decide) _
     (Interleaving.step [sampleSighting "kaiju-1" "kaiju" 300]
       [sampleSighting "kaiju-3" "kaiju" 100] _ _ _
       (Interleaving.step [sampleSighting "kaiju-1" "kaiju" 300] [] _ _ _
         (Interleaving.step [] [] _ _ _ (Interleaving.done _))))).1⟩

/-- C8, evaluated on the code: seeding an empty store from the registry of
`main.go`, with a clock that ticks and a random source that never fails, adds
five records whose timestamps are `now`, `now - 6h`, ..., `now - 24h` in that
order, and `GetAll` then lists them with the oldest timestamp first,
`now - 24h`, ..., `now`: the reverse of the order the claim gives. -/
theorem C8_seeding_lists_oldest_first :
    ((NewInMemoryStorage.GenerateInitialSightings mainRegistry tickingWorld).1.order
      = ["kaiju-1700000000000000000", "kaiju-1700000000000003000",
         "kaiju-1700000000000006000", "kaiju-1700000000000009000",
         "kaiju-1700000000000012000"]) ∧
    ((NewInMemoryStorage.GenerateInitialSightings mainRegistry tickingWorld).1.GetAll).map
        (fun r => r.Timestamp)
      = [tickingWorld.now 14 - 24 * timeHour, tickingWorld.now 11 - 18 * timeHour,
         tickingWorld.now 8 - 12 * timeHour, tickingWorld.now 5 - 6 * timeHour,
         tickingWorld.now 2] ∧
    ((NewInMemoryStorage.GenerateInitialSightings mainRegistry tickingWorld).1.GetAll).map
        (fun r => r.Timestamp)
      ≠ [tickingWorld.now 2, tickingWorld.now 5 - 6 * timeHour,
         tickingWorld.now 8 - 12 * timeHour, tickingWorld.now 11 - 18 * timeHour,
         tickingWorld.now 14 - 24 * timeHour] := by
  decide

/-- C9, evaluated on the code: two successive calls of the kaiju generator's
`Generate` that read the clock within the same nanosecond both succeed and
return different records with the same id. -/
theorem C9_same_clock_reading_same_id :
    ∃ (r1 r2 : Sighting) (w1 w2 : World),
      kaiju.NewGenerator.Generate frozenWorld = (.ok r1, w1) ∧
      kaiju.NewGenerator.Generate w1 = (.ok r2, w2) ∧
      r1.ID = r2.ID ∧ r1.Name ≠ r2.Name :=
  ⟨_, _, _, _, rfl, rfl, by decide, by decide⟩

/-- C10 as stated fails: on an empty registry the kaiju generator registers
under the key `"dragon"`, `Get("dragon")` returns it, and the record it produces
has the category `"kaiju"`, as its `Category()` says, not the key. -/
theorem C10_counterexample :
    (NewRegistry.Register "dragon" kaiju.NewGenerator.toInterface).1 = none ∧
    (NewRegistry.Register "dragon" kaiju.NewGenerator.toInterface).2.Get "dragon"
      = .ok kaiju.NewGenerator.toInterface ∧
    ∃ (rec : Sighting) (w' : World),
      kaiju.NewGenerator.toInterface.Generate tickingWorld = (.ok rec, w') ∧
      rec.Category = "kaiju" ∧ rec.Category ≠ "dragon" ∧
      kaiju.NewGenerator.toInterface.Category ≠ "dragon" :=
  ⟨rfl, rfl, _, _, rfl, by decide, by decide, by decide⟩

/-- C10, amended: if `Register(c, g)` succeeds then `Get(c)` returns `g` itself,
whatever `g.Category()` is; and when `g` is a kaiju generator every record it
produces has the category `g.Category()`, which is `"kaiju"`, so the record's
category equals the key `c` exactly when `c` is `"kaiju"`. -/
theorem C10_registered_generator_keeps_own_category (r : Registry) (c : String)
    (g : Generator) (h : (r.Register c g).1 = none) :
    (r.Register c g).2.Get c = .ok g ∧
    ∀ (kg : kaiju.Generator) (w w' : World) (rec : Sighting),
      g = kg.toInterface → g.Generate w = (.ok rec, w') →
      rec.Category = g.Category ∧ g.Category = "kaiju" ∧
      (rec.Category = c ↔ c = "kaiju") := by
  have habs : r.generators.get c = none := (register_fst_eq_none_iff r c g).1 h
  have hin : (r.Register c g).2.generators.get c = some g := by
    simp only [Registry.Register, habs]
    exact GoMap.get_set_same _ _ _
  refine ⟨by simp only [Registry.Get, hin], ?_⟩
  intro kg w w' rec hg hgen
  subst hg
  have hcat : rec.Category = kg.Category := kaiju.generate_category kg w w' rec hgen
  have hk : kg.Category = "kaiju" := rfl
  refine ⟨hcat, hk, ?_⟩
  rw [hcat, hk]
  exact eq_comm

/-- C10, amended, on the registration that `main.go` makes and the record that
the kaiju generator produces in `tickingWorld`. -/
theorem C10_registered_generator_keeps_own_category_witness :
    (NewRegistry.Register "kaiju" kaiju.NewGenerator.toInterface).1 = none ∧
    kaiju.NewGenerator.toInterface.Generate tickingWorld
      = (.ok tickingRecord, (kaiju.NewGenerator.Generate tickingWorld).2) ∧
    mainRegistry.Get "kaiju" = .ok kaiju.NewGenerator.toInterface ∧
    tickingRecord.Category = "kaiju" :=
  ⟨rfl, rfl,
   (C10_registered_generator_keeps_own_category NewRegistry "kaiju"
      kaiju.NewGenerator.toInterface rfl).1,
   (((C10_registered_generator_keeps_own_category NewRegistry "kaiju"
      kaiju.NewGenerator.toInterface rfl).2 kaiju.NewGenerator tickingWorld _
      tickingRecord rfl rfl).2.2).2 rfl⟩

/-- C11: whatever the random source yields and whatever the clock reads, a
record that `Generate` returns on the generator built by `NewGenerator` has its
latitude in `[-90, 90]`, its longitude in `[-180, 180]`, a non-empty id, the
category `"kaiju"` that `Category()` returns and a non-empty `Attributes` map;
and the index that `randomLocation` draws is always within the location table. -/
theorem C11_generated_record_well_formed (w w' : World) (rec : Sighting)
    (h : kaiju.NewGenerator.Generate w = (.ok rec, w')) :
    (-90 ≤ rec.Location.Latitude ∧ rec.Location.Latitude ≤ 90) ∧
    (-180 ≤ rec.Location.Longitude ∧ rec.Location.Longitude ≤ 180) ∧
    rec.ID ≠ "" ∧
    (rec.Category = kaiju.NewGenerator.Category ∧ rec.Category = "kaiju") ∧
    (rec.Attributes ≠ [] ∧ 0 < rec.Attributes.len) ∧
    rec.Location ∈ kaiju.locations ∧
    ∀ w0 : World,
      0 ≤ (kaiju.NewGenerator.randomLocationIdx w0).1 ∧
      (kaiju.NewGenerator.randomLocationIdx w0).1 < (kaiju.locations.length : Int) := by
  obtain ⟨hloc, ⟨t, hid⟩, hattr⟩ := kaiju.generate_fields _ w w' rec h
  have hmem : rec.Location ∈ kaiju.locations := by
    rw [hloc]
    exact kaiju.randomLocation_mem _ w
  have hrange := kaiju.locations_in_range _ hmem
  have hcat := kaiju.generate_category _ w w' rec h
  have hne : rec.Attributes ≠ [] := by
    intro he
    rw [he] at hattr
    simp [GoMap.keys] at hattr
  refine ⟨⟨hrange.1, hrange.2.1⟩, ⟨hrange.2.2.1, hrange.2.2.2⟩, ?_, ⟨hcat, hcat⟩, ⟨hne, ?_⟩,
    hmem, fun w0 => kaiju.randomLocationIdx_bounds _ w0⟩
  · intro he
    rw [hid] at he
    have hlen := congrArg String.length he
    rw [String.length_append] at hlen
    have h6 : "kaiju-".length = 6 := by decide
    have h0 : "".length = 0 := by decide
    omega
  · have hl : rec.Attributes.len = (rec.Attributes.keys).length := by
      simp [GoMap.len, GoMap.keys]
    rw [hl, hattr]
    decide

/-- C11 on the record that the kaiju generator produces in `tickingWorld`. -/
theorem C11_generated_record_well_formed_witness :
    kaiju.NewGenerator.Generate tickingWorld
      = (.ok tickingRecord, (kaiju.NewGenerator.Generate tickingWorld).2) ∧
    tickingRecord.ID ≠ "" ∧ tickingRecord.Location ∈ kaiju.locations ∧
    (-90 ≤ tickingRecord.Location.Latitude ∧ tickingRecord.Location.Latitude ≤ 90) :=
  ⟨rfl,
   (C11_generated_record_well_formed tickingWorld _ tickingRecord rfl).2.2.1,
   (C11_generated_record_well_formed tickingWorld _ tickingRecord rfl).2.2.2.2.2.1,
   (C11_generated_record_well_formed tickingWorld _ tickingRecord rfl).1⟩

/-- C12: in every reachable store state, after `Add(r)` followed by `Add(r2)`
for two records with the same id, the id stands twice more in `order`,
`Get(id)` returns `r2`, the map has the id as a key once and `Count()` is the
number of distinct ids, `GetAll()` starts with `r2` twice and reads `r2` at every
other entry of that id, `r` is not listed when it differs from `r2`, and
`GetAll()` is longer than `Count()`. -/
theorem C12_readd_same_id (s : InMemoryStorage) (hs : Reachable s) (r r2 : Sighting)
    (hid : r.ID = r2.ID) :
    ((s.Add r).Add r2).order = s.order ++ [r.ID, r.ID] ∧
    ((s.Add r).Add r2).order.count r.ID = s.order.count r.ID + 2 ∧
    ((s.Add r).Add r2).Get r.ID = (r2, true) ∧
    ((s.Add r).Add r2).sightings.keys.count r.ID = 1 ∧
    ((s.Add r).Add r2).Count = (insert r.ID s.order.toFinset).card ∧
    ((s.Add r).Add r2).GetAll
      = r2 :: r2 :: s.order.reverse.map (fun id => if id = r.ID then r2 else (s.Get id).1) ∧
    (r ≠ r2 → r ∉ ((s.Add r).Add r2).GetAll) ∧
    ((s.Add r).Add r2).Count < ((s.Add r).Add r2).GetAll.length := by
  have hreach : Reachable ((s.Add r).Add r2) := Reachable.add _ _ (Reachable.add _ _ hs)
  have hinv := inv_of_reachable _ hreach
  have horder : ((s.Add r).Add r2).order = s.order ++ [r.ID, r.ID] := by
    simp [InMemoryStorage.Add, hid]
  have hget : ((s.Add r).Add r2).sightings.get r.ID = some r2 := by
    rw [hid]
    exact GoMap.get_set_same _ _ _
  have hother : ∀ id : String, id ≠ r.ID →
      ((s.Add r).Add r2).sightings.get id = s.sightings.get id := by
    intro id hne
    show ((s.sightings.set r.ID r).set r2.ID r2).get id = s.sightings.get id
    rw [GoMap.get_set_other _ _ _ _ (fun e => hne (hid.trans e).symm),
      GoMap.get_set_other _ _ _ _ (fun e => hne e.symm)]
  have hread : ∀ id : String,
      (((s.Add r).Add r2).Get id).1 = if id = r.ID then r2 else (s.Get id).1 := by
    intro id
    by_cases hc : id = r.ID
    · subst hc
      simp [InMemoryStorage.Get, hget]
    · simp only [InMemoryStorage.Get, hother id hc, hc, if_false]
  have hall : ((s.Add r).Add r2).GetAll
      = r2 :: r2 :: s.order.reverse.map (fun id => if id = r.ID then r2 else (s.Get id).1) := by
    rw [getAll_eq_map_get _ hinv, horder]
    simp [hread]
  have hcount : ((s.Add r).Add r2).Count = (insert r.ID s.order.toFinset).card := by
    show ((s.Add r).Add r2).sightings.len = _
    rw [GoMap.len_eq_card_keys _ hinv.keysNodup, keys_toFinset_eq_order _ hreach, horder]
    congr 1
    ext x
    simp [or_comm]
  refine ⟨horder, ?_, ?_, ?_, hcount, hall, ?_, ?_⟩
  · rw [horder]
    simp
  · simp [InMemoryStorage.Get, hget]
  · exact List.count_eq_one_of_mem hinv.keysNodup
      ((GoMap.mem_keys_iff _ _).2 ⟨r2, hget⟩)
  · intro hne hmem
    rw [getAll_eq, List.mem_filterMap] at hmem
    obtain ⟨id, _, hv⟩ := hmem
    have hkey : r.ID = id := hinv.idOfKey id r hv
    rw [← hkey, hget] at hv
    exact hne (Option.some.inj hv).symm
  · rw [hcount, hall]
    have h1 : (insert r.ID s.order.toFinset).card ≤ s.order.toFinset.card + 1 :=
      Finset.card_insert_le _ _
    have h2 : s.order.toFinset.card ≤ s.order.length := List.toFinset_card_le _
    simp only [List.length_cons, List.length_map, List.length_reverse]
    omega

/-- C12 on `sampleStore`, which holds the id `"kaiju-1"`, and two further
records of that id that differ in their timestamps. -/
theorem C12_readd_same_id_witness :
    Reachable sampleStore ∧
    (sampleSighting "kaiju-1" "kaiju" 5).ID = (sampleSighting "kaiju-1" "kaiju" 9).ID ∧
    ((sampleStore.Add (sampleSighting "kaiju-1" "kaiju" 5)).Add
        (sampleSighting "kaiju-1" "kaiju" 9)).Get "kaiju-1"
      = (sampleSighting "kaiju-1" "kaiju" 9, true) ∧
    ((sampleStore.Add (sampleSighting "kaiju-1" "kaiju" 5)).Add
        (sampleSighting "kaiju-1" "kaiju" 9)).order = ["kaiju-1", "kaiju-1", "kaiju-1"] ∧
    ((sampleStore.Add (sampleSighting "kaiju-1" "kaiju" 5)).Add
        (sampleSighting "kaiju-1" "kaiju" 9)).Count
      < ((sampleStore.Add (sampleSighting "kaiju-1" "kaiju" 5)).Add
        (sampleSighting "kaiju-1" "kaiju" 9)).GetAll.length :=
  ⟨Reachable.add _ _ (Reachable.clear _ (reachable_addAll _ _ Reachable.new)),
   rfl,
   (C12_readd_same_id sampleStore
     (Reachable.add _ _ (Reachable.clear _ (reachable_addAll _ _ Reachable.new)))
     (sampleSighting "kaiju-1" "kaiju" 5) (sampleSighting "kaiju-1" "kaiju" 9) rfl).2.2.1,
   (C12_readd_same_id sampleStore
     (Reachable.add _ _ (Reachable.clear _ (reachable_addAll _ _ Reachable.new)))
     (sampleSighting "kaiju-1" "kaiju" 5) (sampleSighting "kaiju-1" "kaiju" 9) rfl).1,
   (C12_readd_same_id sampleStore
     (Reachable.add _ _ (Reachable.clear _ (reachable_addAll _ _ Reachable.new)))
     (sampleSighting "kaiju-1" "kaiju" 5) (sampleSighting "kaiju-1" "kaiju" 9)
     rfl).2.2.2.2.2.2.2⟩
